import Mathlib

/-!
Shallow embedding of the kanban board backend (`src/index.js`).

The store (a Prisma-backed database) is modelled as a `Store` record holding
the list of container rows and the list of item rows.  Each HTTP route
handler and socket handler of the source becomes a pure function from the
store (and the request data) to the new store together with its observable
output (an HTTP status code, a created entity, or a broadcast payload).

Prisma operations are embedded as follows:
* `prisma.item.update({ where: { id }, data })` succeeds exactly when a row
  with that id exists, and otherwise throws (Prisma error P2025); inside
  `prisma.$transaction` a throw aborts the whole transaction, so the
  transaction is an `Option Store` computation threaded with `foldlM`.
* `findFirst({ orderBy: { position: 'desc' } })` returns a row of maximal
  `position` (or `null` on an empty result set); it is embedded as a fold
  picking an element of maximal position.
* `findMany({ include: items, orderBy: position asc })` is embedded as
  `getSnapshot`: containers sorted by position, each paired with its items
  (rows whose `containerId` matches) sorted by position.
* in `data`, a field whose value is `undefined` (an omitted field of the
  request body) is left unchanged by the update; present fields are set.
-/

namespace Kanban

/-- Container row: `id`, `title`, optional `description`, integer `position`. -/
structure Container where
  id : String
  title : String
  description : Option String
  position : Int
deriving Repr, DecidableEq

/-- Item row: `id`, `title`, integer `position`, foreign key `containerId`. -/
structure Item where
  id : String
  title : String
  position : Int
  containerId : String
deriving Repr, DecidableEq

/-- The persistent store: all container rows and all item rows. -/
structure Store where
  containers : List Container
  items : List Item
deriving Repr, DecidableEq

/-- The ids of all item rows present in the store. -/
def itemIds (s : Store) : List String := s.items.map (fun it => it.id)

/-- The ids of all container rows present in the store. -/
def containerIds (s : Store) : List String := s.containers.map (fun c => c.id)

/-- One entry `{id, position}` of a reorder batch. -/
structure ReorderItem where
  id : String
  position : Int
deriving Repr, DecidableEq

/-- One entry `{id, items}` of a reorder batch: a container id together with
the `(item id, position)` list submitted for it. -/
structure ReorderContainer where
  id : String
  items : List ReorderItem
deriving Repr, DecidableEq

/-- A reorder batch: the `containers` array of the request body. -/
abbrev Batch := List ReorderContainer

/-- Embedding of `prisma.item.update({ where: { id: itemId }, data: { position, containerId } })`
inside the reorder transaction: fails (throws P2025) when no item row has id
`itemId`, otherwise sets `position` and `containerId` of that row. -/
def updateItemTx (itemId : String) (pos : Int) (cid : String) (s : Store) : Option Store :=
  if s.items.any (fun it => it.id = itemId) then
    some { s with items := s.items.map (fun it =>
      if it.id = itemId then { it with position := pos, containerId := cid } else it) }
  else
    none

/-- Embedding of the `prisma.$transaction` body shared by
`PATCH /api/containers-order-items` (lines 244-254) and the `updatedItems`
socket handler (lines 282-292): the two nested `for` loops issuing one
`item.update` per supplied pair, all-or-nothing. -/
def applyReorderTx (s : Store) (batch : Batch) : Option Store :=
  batch.foldlM
    (fun st rc => rc.items.foldlM
      (fun st2 ri => updateItemTx ri.id ri.position rc.id st2) st)
    s

/-- The `PATCH /api/containers-order-items` handler: on transaction success
respond 200 (`Items order updated successfully`), on failure the catch block
responds 500 and the transaction has been rolled back. -/
def reorderEndpoint (s : Store) (batch : Batch) : Store × Nat :=
  match applyReorderTx s batch with
  | some s2 => (s2, 200)
  | none => (s, 500)

/-- Item comparison used by `orderBy: { position: 'asc' }`. -/
def posLeItem (a b : Item) : Bool := a.position ≤ b.position

/-- Container comparison used by `orderBy: { position: 'asc' }`. -/
def posLeContainer (a b : Container) : Bool := a.position ≤ b.position

/-- Insert an element into a list in front of the first element it is `le` to:
one step of the stable sort modelling `orderBy`. -/
def insertSorted {α : Type} (le : α → α → Bool) (a : α) : List α → List α
  | [] => [a]
  | y :: ys => if le a y then a :: y :: ys else y :: insertSorted le a ys

/-- Stable sort modelling `orderBy: { position: 'asc' }`. -/
def sortByLe {α : Type} (le : α → α → Bool) (l : List α) : List α :=
  l.foldr (insertSorted le) []

/-- The items included under one container by
`findMany({ include: { items: { orderBy: { position: 'asc' } } } })`. -/
def containerItems (s : Store) (cid : String) : List Item :=
  sortByLe posLeItem (s.items.filter (fun it => it.containerId = cid))

/-- A snapshot: containers in board order, each with its ordered items. -/
abbrev Snapshot := List (Container × List Item)

/-- Embedding of the full read
`prisma.container.findMany({ include: items orderBy asc, orderBy: position asc })`
used by `GET /api/containers`, `requestInitialData` and `updatedItems`. -/
def getSnapshot (s : Store) : Snapshot :=
  (sortByLe posLeContainer s.containers).map (fun c => (c, containerItems s c.id))

/-- The `updatedItems` socket handler (lines 281-306): run the reorder
transaction; on success re-read the snapshot and emit it (`io.emit`), on
failure the rejected `await` aborts the handler before the re-read, so no
payload is emitted. -/
def updatedItemsHandler (s : Store) (batch : Batch) : Store × Option Snapshot :=
  match applyReorderTx s batch with
  | some s2 => (s2, some (getSnapshot s2))
  | none => (s, none)

/-- Deliveries produced by `io.emit('dataUpdated', newData)`: every connected
client (the sender included) receives the payload; when the handler emitted
nothing, nobody receives anything. -/
def broadcastDeliveries (clients : List String) (out : Option Snapshot) :
    List (String × Snapshot) :=
  match out with
  | some snap => clients.map (fun c => (c, snap))
  | none => []

/-- Embedding of `findFirst({ orderBy: { position: 'desc' } })` on a row set:
returns a row of maximal position, or `none` on an empty set. -/
def findMaxBy {α : Type} (pos : α → Int) (l : List α) : Option α :=
  l.foldl
    (fun acc x => match acc with
      | none => some x
      | some b => if pos b < pos x then some x else some b)
    none

/-- The `POST /api/containers` handler (lines 90-111): read the last container
by descending position, append the new container at `last.position + 1`
(or `0` when there is none).  `newId` stands for the freshly minted id. -/
def createContainer (s : Store) (newId title : String) (descr : Option String) :
    Store × Container :=
  let newPosition : Int :=
    match findMaxBy (fun c => c.position) s.containers with
    | some lastContainer => lastContainer.position + 1
    | none => 0
  let c : Container := { id := newId, title := title, description := descr, position := newPosition }
  ({ s with containers := s.containers ++ [c] }, c)

/-- The position computed by `POST /api/containers/:containerId/items`
(lines 169-177): `findFirst({ where: { containerId }, orderBy: { position: 'desc' } })`
then `lastItem ? lastItem.position + 1 : 0`. -/
def newItemPosition (s : Store) (cid : String) : Int :=
  match findMaxBy (fun it => it.position) (s.items.filter (fun it => it.containerId = cid)) with
  | some lastItem => lastItem.position + 1
  | none => 0

/-- The `prisma.item.create` step of `POST /api/containers/:containerId/items`
(lines 179-186), taken separately from the position read because the source
runs the two steps without a transaction. -/
def insertItem (s : Store) (newId title : String) (pos : Int) (cid : String) :
    Store × Item :=
  let it : Item := { id := newId, title := title, position := pos, containerId := cid }
  ({ s with items := s.items ++ [it] }, it)

/-- The whole `POST /api/containers/:containerId/items` handler run without
interruption: read the maximal position in the container, then insert. -/
def createItem (s : Store) (cid : String) (newId title : String) : Store × Item :=
  insertItem s newId title (newItemPosition s cid) cid

/-- Embedding of the route validator `param('id').isString().isLength({ min: 5, max: 8 })`
(lines 59, 117, 144, 197, 224): the full id token must be 5 to 8 characters. -/
def idLengthOk (id : String) : Bool := 5 ≤ id.length && id.length ≤ 8

/-- The `PATCH /api/containers/:id` handler (lines 115-138): the id param is
validated first (400 on failure); `prisma.container.update` throws P2025 when
the id has no row, which the catch block turns into a 500; on success the
fields present in the body are set and the omitted (`undefined`) ones kept. -/
def updateContainerEndpoint (s : Store) (id : String)
    (title : Option String) (descr : Option String) (pos : Option Int) : Store × Nat :=
  if idLengthOk id then
    if s.containers.any (fun c => c.id = id) then
      ({ s with containers := s.containers.map (fun c =>
          if c.id = id then
            { c with
              title := title.getD c.title,
              description := match descr with | some d => some d | none => c.description,
              position := pos.getD c.position }
          else c) }, 200)
    else (s, 500)
  else (s, 400)

/-- The `PATCH /api/items/:id` handler (lines 195-219): the id param and an
optionally supplied `containerId` are validated (400 on failure);
`prisma.item.update` throws P2025 on a missing id, caught as 500; on success
present fields are set and omitted (`undefined`) ones kept. -/
def updateItemEndpoint (s : Store) (id : String)
    (title : Option String) (pos : Option Int) (cid : Option String) : Store × Nat :=
  if idLengthOk id && (match cid with | some c => idLengthOk c | none => true) then
    if s.items.any (fun it => it.id = id) then
      ({ s with items := s.items.map (fun it =>
          if it.id = id then
            { it with
              title := title.getD it.title,
              position := pos.getD it.position,
              containerId := cid.getD it.containerId }
          else it) }, 200)
    else (s, 500)
  else (s, 400)

/-- Embedding of `generateUUID` (lines 22-24): the source takes `uuidv4()`,
removes every dash with a global regex replace, and keeps the first 8
characters with `substring(0, 8)`.  `raw` is the string returned by
`uuidv4()`. -/
def generateUUID (raw : String) : String :=
  String.mk ((raw.data.filter (fun c => c ≠ '-')).take 8)

/-- The id minted for a new container (line 101): `container-${generateUUID()}`. -/
def mintContainerId (raw : String) : String := "container-" ++ generateUUID raw

/-- The id minted for a new item (line 181): `item-${generateUUID()}`. -/
def mintItemId (raw : String) : String := "item-" ++ generateUUID raw

/-- Embedding of the `validate` middleware (lines 27-33): `validationResult`
collects the failures of the validators registered on the route, and the
request is rejected with 400 exactly when that list is nonempty. -/
def runValidators (vs : List (Option Batch → Bool)) (body : Option Batch) : Bool :=
  vs.all (fun v => v body)

/-- The validator chain registered on `PATCH /api/containers-order-items`
(line 240): the route passes only `validate`, with no validator before it,
so the chain is empty. -/
def containersOrderItemsValidators : List (Option Batch → Bool) := []

/-- The `PATCH /api/containers-order-items` handler on a raw body (line 240):
`validate` runs the (empty) validator chain; a body whose `containers` field
is missing or not destructurable into an array of `{id, items}` entries
(modelled as `none`) makes the `for...of` inside the transaction callback
throw, the transaction roll back, and the catch block answer 500. -/
def reorderEndpointRaw (s : Store) (body : Option Batch) : Store × Nat :=
  if runValidators containersOrderItemsValidators body then
    match body with
    | some b => reorderEndpoint s b
    | none => (s, 500)
  else (s, 400)

/-! Helper notions used to reason about the reorder transaction.  A batch
flattens to the list of elementary updates the nested loops issue, in order:
`(item id, new position, new containerId)`. -/

/-- One elementary update issued by the reorder loops. -/
abbrev Upd := String × Int × String

/-- The effect of one elementary update on one row. -/
def assignStep (u : Upd) (it : Item) : Item :=
  if it.id = u.1 then { it with position := u.2.1, containerId := u.2.2 } else it

/-- The effect of a list of elementary updates on one row. -/
def applyAssigns (L : List Upd) (it : Item) : Item :=
  L.foldl (fun a u => assignStep u a) it

/-- The elementary updates of a batch, in the order the loops issue them. -/
def batchUpdates (B : Batch) : List Upd :=
  B.flatMap (fun rc => rc.items.map (fun ri => (ri.id, ri.position, rc.id)))

/-- The item ids referenced by a batch, with multiplicity. -/
def updateIds (B : Batch) : List String := (batchUpdates B).map (fun u => u.1)

/-- The reorder transaction as a fold over the flattened update list. -/
def foldUpdates (s : Store) (L : List Upd) : Option Store :=
  L.foldlM (fun st u => updateItemTx u.1 u.2.1 u.2.2 st) s

/-- The last `(position, containerId)` a list of elementary updates assigns
to a given item id, if any. -/
def lastMatch (L : List Upd) (id : String) : Option (Int × String) :=
  (L.reverse.find? (fun u => u.1 = id)).map (fun u => u.2)

/-! Structural lemmas. -/

lemma itemFieldsExt {a b : Item} (h1 : a.id = b.id) (h2 : a.title = b.title)
    (h3 : a.position = b.position) (h4 : a.containerId = b.containerId) : a = b := by
  cases a; cases b; simp_all

lemma storeFieldsExt {a b : Store} (hc : a.containers = b.containers)
    (hi : a.items = b.items) : a = b := by
  cases a; cases b; simp_all

lemma assignStep_id (u : Upd) (it : Item) : (assignStep u it).id = it.id := by
  unfold assignStep; split <;> rfl

lemma assignStep_title (u : Upd) (it : Item) : (assignStep u it).title = it.title := by
  unfold assignStep; split <;> rfl

lemma applyAssigns_cons (u : Upd) (L : List Upd) (it : Item) :
    applyAssigns (u :: L) it = applyAssigns L (assignStep u it) := rfl

lemma applyAssigns_append (L : List Upd) (u : Upd) (it : Item) :
    applyAssigns (L ++ [u]) it = assignStep u (applyAssigns L it) := by
  simp [applyAssigns, List.foldl_append]

lemma applyAssigns_id (L : List Upd) : ∀ it : Item, (applyAssigns L it).id = it.id := by
  induction L with
  | nil => intro it; rfl
  | cons u L ih => intro it; rw [applyAssigns_cons, ih, assignStep_id]

lemma applyAssigns_title (L : List Upd) : ∀ it : Item, (applyAssigns L it).title = it.title := by
  induction L with
  | nil => intro it; rfl
  | cons u L ih => intro it; rw [applyAssigns_cons, ih, assignStep_title]

lemma updateItemTx_eq (u : Upd) (s : Store) :
    updateItemTx u.1 u.2.1 u.2.2 s =
      if s.items.any (fun it => it.id = u.1) then
        some { s with items := s.items.map (fun it => assignStep u it) }
      else none := rfl

lemma mem_itemIds {s : Store} {x : String} :
    x ∈ itemIds s ↔ s.items.any (fun it => it.id = x) = true := by
  simp [itemIds, List.any_eq_true]

lemma itemIds_mapAssign (s : Store) (u : Upd) :
    itemIds { s with items := s.items.map (fun it => assignStep u it) } = itemIds s := by
  unfold itemIds
  rw [List.map_map]
  exact List.map_congr_left (fun it _ => assignStep_id u it)

/-! The reorder transaction as a fold over the flattened update list. -/

lemma foldUpdates_nil (s : Store) : foldUpdates s [] = some s := rfl

lemma foldUpdates_cons (u : Upd) (L : List Upd) (s : Store) :
    foldUpdates s (u :: L) =
      (updateItemTx u.1 u.2.1 u.2.2 s).bind (fun s2 => foldUpdates s2 L) := rfl

lemma foldUpdates_append (s : Store) (L1 L2 : List Upd) :
    foldUpdates s (L1 ++ L2) = (foldUpdates s L1).bind (fun s2 => foldUpdates s2 L2) := by
  unfold foldUpdates
  rw [List.foldlM_append]
  rfl

lemma foldUpdates_char {L : List Upd} : ∀ {s s2 : Store}, foldUpdates s L = some s2 →
    s2.containers = s.containers ∧ s2.items = s.items.map (applyAssigns L) := by
  induction L with
  | nil =>
    intro s s2 h
    rw [foldUpdates_nil, Option.some_inj] at h
    subst h
    refine ⟨rfl, ?_⟩
    have h1 : s.items.map (applyAssigns []) = s.items.map id := List.map_congr_left (fun it _ => rfl)
    rw [h1, List.map_id]
  | cons u L ih =>
    intro s s2 h
    rw [foldUpdates_cons, updateItemTx_eq] at h
    by_cases hany : s.items.any (fun it => it.id = u.1) = true
    · rw [if_pos hany] at h
      simp only [Option.some_bind] at h
      obtain ⟨hc, hi⟩ := ih h
      refine ⟨hc, ?_⟩
      rw [hi]
      simp only [List.map_map]
      exact List.map_congr_left (fun it _ => rfl)
    · rw [if_neg hany] at h
      simp at h

lemma foldUpdates_itemIds {L : List Upd} {s s2 : Store} (h : foldUpdates s L = some s2) :
    itemIds s2 = itemIds s := by
  obtain ⟨-, hi⟩ := foldUpdates_char h
  unfold itemIds
  rw [hi, List.map_map]
  exact List.map_congr_left (fun it _ => applyAssigns_id L it)

lemma foldUpdates_isSome (L : List Upd) : ∀ s : Store, (∀ u ∈ L, u.1 ∈ itemIds s) →
    ∃ s2, foldUpdates s L = some s2 := by
  induction L with
  | nil => intro s _; exact ⟨s, rfl⟩
  | cons u L ih =>
    intro s h
    have hany := mem_itemIds.mp (h u (List.mem_cons_self u L))
    obtain ⟨s2, h2⟩ := ih { s with items := s.items.map (fun it => assignStep u it) }
      (fun v hv => by rw [itemIds_mapAssign]; exact h v (List.mem_cons_of_mem u hv))
    refine ⟨s2, ?_⟩
    rw [foldUpdates_cons, updateItemTx_eq, if_pos hany]
    simpa using h2

lemma foldUpdates_none (L : List Upd) : ∀ (s : Store) (u : Upd), u ∈ L → u.1 ∉ itemIds s →
    foldUpdates s L = none := by
  induction L with
  | nil => intro s u hu; cases hu
  | cons v L ih =>
    intro s u hu hnot
    rw [foldUpdates_cons, updateItemTx_eq]
    rcases List.mem_cons.mp hu with rfl | hu2
    · have hne : ¬ (s.items.any (fun it => it.id = u.1) = true) :=
        fun hc => hnot (mem_itemIds.mpr hc)
      rw [if_neg hne]
      rfl
    · by_cases hany : s.items.any (fun it => it.id = v.1) = true
      · rw [if_pos hany]
        have hres := ih { s with items := s.items.map (fun it => assignStep v it) } u hu2
          (by rw [itemIds_mapAssign]; exact hnot)
        simpa using hres
      · rw [if_neg hany]
        rfl

lemma itemsLoop_eq (cid : String) (ris : List ReorderItem) : ∀ s : Store,
    ris.foldlM (fun st2 ri => updateItemTx ri.id ri.position cid st2) s =
      foldUpdates s (ris.map (fun ri => (ri.id, ri.position, cid))) := by
  induction ris with
  | nil => intro s; rfl
  | cons ri ris ih =>
    intro s
    simp only [List.map_cons, List.foldlM_cons, foldUpdates_cons]
    cases h : updateItemTx ri.id ri.position cid s with
    | none => rfl
    | some s1 => simp [ih s1]

lemma applyReorderTx_eq_foldUpdates (B : Batch) : ∀ s : Store,
    applyReorderTx s B = foldUpdates s (batchUpdates B) := by
  induction B with
  | nil => intro s; rfl
  | cons rc B ih =>
    intro s
    simp only [applyReorderTx, List.foldlM_cons, batchUpdates, List.flatMap_cons]
    rw [foldUpdates_append]
    rw [show (rc.items.foldlM (fun st2 ri => updateItemTx ri.id ri.position rc.id st2) s)
      = foldUpdates s (rc.items.map (fun ri => (ri.id, ri.position, rc.id))) from itemsLoop_eq rc.id rc.items s]
    cases h : foldUpdates s (rc.items.map (fun ri => (ri.id, ri.position, rc.id))) with
    | none => rfl
    | some s1 =>
      simp only [Option.some_bind]
      have := ih s1
      simp only [applyReorderTx, batchUpdates] at this
      exact this

/-! Last-assignment characterisation of a batch's effect on one row. -/

lemma lastMatch_nil (id : String) : lastMatch [] id = none := rfl

lemma lastMatch_append (L : List Upd) (u : Upd) (id : String) :
    lastMatch (L ++ [u]) id = if u.1 = id then some u.2 else lastMatch L id := by
  unfold lastMatch
  rw [List.reverse_append]
  simp only [List.reverse_singleton, List.singleton_append, List.find?_cons]
  by_cases h : u.1 = id
  · simp [h]
  · simp [h]

lemma lastMatch_extend {L : List Upd} {id : String} {pc : Int × String} (v : Upd)
    (h : lastMatch L id = some pc) : lastMatch (v :: L) id = some pc := by
  unfold lastMatch at h ⊢
  rw [List.reverse_cons, List.find?_append]
  cases hf : L.reverse.find? (fun u => u.1 = id) with
  | none => rw [hf] at h; simp at h
  | some w => rw [hf] at h; simpa using h

lemma lastMatch_head_new {L : List Upd} {v : Upd} (hnot : ∀ u ∈ L, u.1 ≠ v.1) :
    lastMatch (v :: L) v.1 = some v.2 := by
  unfold lastMatch
  rw [List.reverse_cons, List.find?_append]
  have hnone : L.reverse.find? (fun u => u.1 = v.1) = none :=
    List.find?_eq_none.mpr (fun u hu => by simpa using hnot u (List.mem_reverse.mp hu))
  rw [hnone]
  simp [List.find?_cons]

lemma lastMatch_of_nodup : ∀ (L : List Upd), (L.map (fun u => u.1)).Nodup →
    ∀ u ∈ L, lastMatch L u.1 = some u.2 := by
  intro L
  induction L with
  | nil => intro _ u hu; cases hu
  | cons v L ih =>
    intro hnd u hu
    rw [List.map_cons, List.nodup_cons] at hnd
    obtain ⟨hv, hnd2⟩ := hnd
    rcases List.mem_cons.mp hu with rfl | hu2
    · exact lastMatch_head_new (fun w hw heq => hv (heq ▸ List.mem_map_of_mem _ hw))
    · exact lastMatch_extend v (ih hnd2 u hu2)

lemma lastMatch_eq_none {L : List Upd} {id : String} (h : ∀ u ∈ L, u.1 ≠ id) :
    lastMatch L id = none := by
  unfold lastMatch
  rw [List.find?_eq_none.mpr (fun u hu => by simpa using h u (List.mem_reverse.mp hu))]
  rfl

lemma applyAssigns_lastMatch (L : List Upd) (it : Item) :
    applyAssigns L it =
      match lastMatch L it.id with
      | none => it
      | some pc => { it with position := pc.1, containerId := pc.2 } := by
  induction L using List.reverseRecOn with
  | nil => rfl
  | append_singleton L u ih =>
    rw [applyAssigns_append, lastMatch_append]
    unfold assignStep
    by_cases h : u.1 = it.id
    · rw [if_pos h]
      rw [if_pos (by rw [applyAssigns_id]; exact h.symm)]
      exact itemFieldsExt (by rw [applyAssigns_id]) (by rw [applyAssigns_title]) rfl rfl
    · rw [if_neg h]
      rw [if_neg (by rw [applyAssigns_id]; exact fun hc => h hc.symm)]
      exact ih

lemma applyAssigns_idem (L : List Upd) (it : Item) :
    applyAssigns L (applyAssigns L it) = applyAssigns L it := by
  have hchar := applyAssigns_lastMatch L it
  rw [applyAssigns_lastMatch L (applyAssigns L it), applyAssigns_id, hchar]
  cases h : lastMatch L it.id with
  | none => simp [h]
  | some pc => simp [h]

lemma applyAssigns_not_referenced {L : List Upd} {it : Item}
    (h : ∀ u ∈ L, u.1 ≠ it.id) : applyAssigns L it = it := by
  rw [applyAssigns_lastMatch, lastMatch_eq_none h]

/-! The `findFirst orderBy position desc` read computes the maximum. -/

lemma foldMax_aux {α : Type} (pos : α → Int) (l : List α) : ∀ x : α,
    Option.map pos
      (List.foldl (fun acc c => match acc with
        | none => some c
        | some b => if pos b < pos c then some c else some b) (some x) l)
      = some (List.foldl (fun m c => max m (pos c)) (pos x) l) := by
  induction l with
  | nil => intro x; rfl
  | cons c l ih =>
    intro x
    rw [List.foldl_cons, List.foldl_cons]
    show Option.map pos
        (List.foldl (fun acc c => match acc with
          | none => some c
          | some b => if pos b < pos c then some c else some b)
          (if pos x < pos c then some c else some x) l)
      = some (List.foldl (fun m c => max m (pos c)) (max (pos x) (pos c)) l)
    by_cases h : pos x < pos c
    · rw [if_pos h, ih c, max_eq_right (le_of_lt h)]
    · rw [if_neg h, ih x, max_eq_left (le_of_not_lt h)]

lemma findMaxBy_map {α : Type} (pos : α → Int) (l : List α) :
    Option.map pos (findMaxBy pos l) = (l.map pos).max? := by
  cases l with
  | nil => rfl
  | cons c l =>
    unfold findMaxBy
    rw [List.foldl_cons]
    show Option.map pos
        (List.foldl (fun acc x => match acc with
          | none => some x
          | some b => if pos b < pos x then some x else some b) (some c) l)
      = ((c :: l).map pos).max?
    rw [foldMax_aux]
    show _ = some ((l.map pos).foldl max (pos c))
    rw [List.foldl_map]

/-! Membership in the sorted snapshot. -/

lemma mem_insertSorted {α : Type} (le : α → α → Bool) (a x : α) :
    ∀ l : List α, x ∈ insertSorted le a l ↔ x = a ∨ x ∈ l := by
  intro l
  induction l with
  | nil => simp [insertSorted]
  | cons y ys ih =>
    unfold insertSorted
    by_cases h : le a y
    · simp [h]
    · simp only [h]
      rw [if_neg (by simp [h])]
      simp only [List.mem_cons, ih]
      tauto

lemma mem_sortByLe {α : Type} (le : α → α → Bool) (x : α) :
    ∀ l : List α, x ∈ sortByLe le l ↔ x ∈ l := by
  intro l
  induction l with
  | nil => simp [sortByLe]
  | cons y ys ih =>
    show x ∈ insertSorted le y (sortByLe le ys) ↔ _
    rw [mem_insertSorted, ih]
    simp

lemma mem_containerIds {s : Store} {x : String} :
    x ∈ containerIds s ↔ s.containers.any (fun c => c.id = x) = true := by
  simp [containerIds, List.any_eq_true]

lemma mem_getSnapshot_of_container {s : Store} {c : Container} (hc : c ∈ s.containers) :
    (c, containerItems s c.id) ∈ getSnapshot s :=
  List.mem_map_of_mem _ ((mem_sortByLe posLeContainer c s.containers).mpr hc)

lemma mem_containerItems {s : Store} {it : Item} {cid : String}
    (hit : it ∈ s.items) (hcid : it.containerId = cid) : it ∈ containerItems s cid :=
  (mem_sortByLe posLeItem it _).mpr (List.mem_filter.mpr ⟨hit, by simp [hcid]⟩)

/-! Concrete sample data used by witnesses and counterexamples. -/

/-- A sample store: two containers, three items. -/
def sampleStore : Store :=
  ⟨[⟨"c1234", "A", none, 0⟩, ⟨"c5678", "B", none, 1⟩],
   [⟨"i1111", "x", 0, "c1234"⟩, ⟨"i2222", "y", 1, "c1234"⟩, ⟨"i3333", "z", 0, "c5678"⟩]⟩

/-- A sample valid reorder batch over `sampleStore`: move `i3333` into
container `c1234` at position 0 and shift the two resident items. -/
def sampleBatch : Batch :=
  [⟨"c1234", [⟨"i3333", 0⟩, ⟨"i1111", 1⟩, ⟨"i2222", 2⟩]⟩, ⟨"c5678", []⟩]

/-! Claim C1. -/

/-- C1, amended: the batch must additionally reference each item id at most
once (with a duplicated id only the last supplied pair is reflected).  For
such a valid batch the bulk reorder succeeds with status 200, every item
referenced in the batch shows up in the snapshot under its enclosing batch
container with exactly the supplied position and that container's id, the
container rows are untouched, and every item row whose id the batch does not
reference keeps exactly its previous value, in particular its
`(containerId, position)`. -/
theorem reorder_reflects_batch (s : Store) (B : Batch)
    (h1 : ∀ rc ∈ B, ∀ ri ∈ rc.items, ri.id ∈ itemIds s)
    (h2 : ∀ rc ∈ B, rc.id ∈ containerIds s)
    (h3 : (updateIds B).Nodup) :
    ∃ s2, applyReorderTx s B = some s2 ∧
      reorderEndpoint s B = (s2, 200) ∧
      (∀ rc ∈ B, ∀ ri ∈ rc.items,
        ∃ e ∈ getSnapshot s2, e.1.id = rc.id ∧
          ∃ it ∈ e.2, it.id = ri.id ∧ it.position = ri.position ∧ it.containerId = rc.id) ∧
      s2.containers = s.containers ∧
      s2.items.length = s.items.length ∧
      (∀ (i : Nat) (hi : i < s.items.length) (hi2 : i < s2.items.length),
        (s.items[i]).id ∉ updateIds B → s2.items[i] = s.items[i]) := by
  have hall : ∀ u ∈ batchUpdates B, u.1 ∈ itemIds s := by
    intro u hu
    obtain ⟨rc, hrc, hu2⟩ := List.mem_flatMap.mp hu
    obtain ⟨ri, hri, hriu⟩ := List.mem_map.mp hu2
    have hu1 : u.1 = ri.id := by rw [← hriu]
    rw [hu1]
    exact h1 rc hrc ri hri
  obtain ⟨s2, hs2⟩ := foldUpdates_isSome (batchUpdates B) s hall
  have htx : applyReorderTx s B = some s2 := by
    rw [applyReorderTx_eq_foldUpdates]; exact hs2
  obtain ⟨hcont, hitems⟩ := foldUpdates_char hs2
  refine ⟨s2, htx, ?_, ?_, hcont, ?_, ?_⟩
  · unfold reorderEndpoint; rw [htx]
  · intro rc hrc ri hri
    have hu : ((ri.id, ri.position, rc.id) : Upd) ∈ batchUpdates B :=
      List.mem_flatMap.mpr ⟨rc, hrc, List.mem_map_of_mem _ hri⟩
    have hmem : ri.id ∈ s.items.map (fun x => x.id) := h1 rc hrc ri hri
    obtain ⟨old, hold, holdid⟩ := List.mem_map.mp hmem
    have hit2 : applyAssigns (batchUpdates B) old ∈ s2.items := by
      rw [hitems]; exact List.mem_map_of_mem _ hold
    have hlast : lastMatch (batchUpdates B) old.id = some (ri.position, rc.id) := by
      rw [holdid]
      exact lastMatch_of_nodup (batchUpdates B) h3 _ hu
    have hfields : applyAssigns (batchUpdates B) old =
        { old with position := ri.position, containerId := rc.id } := by
      rw [applyAssigns_lastMatch, hlast]
    have hmem2 : rc.id ∈ s.containers.map (fun c => c.id) := h2 rc hrc
    obtain ⟨c, hcmem, hcid⟩ := List.mem_map.mp hmem2
    refine ⟨(c, containerItems s2 c.id), ?_, hcid, applyAssigns (batchUpdates B) old,
      ?_, ?_, ?_, ?_⟩
    · apply mem_getSnapshot_of_container
      rw [hcont]; exact hcmem
    · apply mem_containerItems hit2
      rw [hfields]; exact hcid.symm
    · rw [hfields]; exact holdid
    · rw [hfields]
    · rw [hfields]
  · rw [hitems, List.length_map]
  · intro i hi hi2 hnot
    simp only [hitems, List.getElem_map]
    apply applyAssigns_not_referenced
    intro u hu heq
    exact hnot (heq ▸ List.mem_map_of_mem (fun v => v.1) hu)

/-- Witness for C1 at `sampleStore`/`sampleBatch` (the spec §8 worked example). -/
theorem reorder_reflects_batch_witness :
    (∀ rc ∈ sampleBatch, ∀ ri ∈ rc.items, ri.id ∈ itemIds sampleStore) ∧
    (∀ rc ∈ sampleBatch, rc.id ∈ containerIds sampleStore) ∧
    (updateIds sampleBatch).Nodup ∧
    (∃ s2, applyReorderTx sampleStore sampleBatch = some s2 ∧
      reorderEndpoint sampleStore sampleBatch = (s2, 200) ∧
      (∀ rc ∈ sampleBatch, ∀ ri ∈ rc.items,
        ∃ e ∈ getSnapshot s2, e.1.id = rc.id ∧
          ∃ it ∈ e.2, it.id = ri.id ∧ it.position = ri.position ∧ it.containerId = rc.id) ∧
      s2.containers = sampleStore.containers ∧
      s2.items.length = sampleStore.items.length ∧
      (∀ (i : Nat) (hi : i < sampleStore.items.length) (hi2 : i < s2.items.length),
        (sampleStore.items[i]).id ∉ updateIds sampleBatch →
          s2.items[i] = sampleStore.items[i])) :=
  ⟨by decide, by decide, by decide,
    reorder_reflects_batch sampleStore sampleBatch (by decide) (by decide) (by decide)⟩

/-- Counterexample to C1 as stated: a batch that repeats an item id is valid
in the claim's sense (its item id and container id exist), yet after the
apply the snapshot does not give the item the position of every pair supplied
for it: the first supplied pair `(i1111, 5)` is overwritten by `(i1111, 7)`. -/
theorem reorder_duplicate_pair_not_reflected :
    applyReorderTx ⟨[⟨"c1234", "A", none, 0⟩], [⟨"i1111", "x", 0, "c1234"⟩]⟩
        [⟨"c1234", [⟨"i1111", 5⟩, ⟨"i1111", 7⟩]⟩]
      = some ⟨[⟨"c1234", "A", none, 0⟩], [⟨"i1111", "x", 7, "c1234"⟩]⟩ ∧
    ("i1111" ∈ itemIds ⟨[⟨"c1234", "A", none, 0⟩], [⟨"i1111", "x", 0, "c1234"⟩]⟩) ∧
    ("c1234" ∈ containerIds ⟨[⟨"c1234", "A", none, 0⟩], [⟨"i1111", "x", 0, "c1234"⟩]⟩) ∧
    ¬ (∀ rc ∈ ([⟨"c1234", [⟨"i1111", 5⟩, ⟨"i1111", 7⟩]⟩] : Batch), ∀ ri ∈ rc.items,
        ∀ e ∈ getSnapshot ⟨[⟨"c1234", "A", none, 0⟩], [⟨"i1111", "x", 7, "c1234"⟩]⟩,
          ∀ it ∈ e.2, it.id = ri.id → it.position = ri.position) := by decide

/-! Claim C2. -/

/-- C2: a reorder batch referencing at least one item id that is not in the
store makes the bulk reorder fail with the generic 500 answer, and the store
(and hence the snapshot) after the failed call is exactly the store before
it: no update of the batch is persisted. -/
theorem reorder_missing_id_no_partial_write (s : Store) (B : Batch)
    (h : ∃ rc ∈ B, ∃ ri ∈ rc.items, ri.id ∉ itemIds s) :
    reorderEndpoint s B = (s, 500) ∧
    getSnapshot ((reorderEndpoint s B).1) = getSnapshot s := by
  obtain ⟨rc, hrc, ri, hri, hid⟩ := h
  have hu : ((ri.id, ri.position, rc.id) : Upd) ∈ batchUpdates B :=
    List.mem_flatMap.mpr ⟨rc, hrc, List.mem_map_of_mem _ hri⟩
  have hnone : applyReorderTx s B = none := by
    rw [applyReorderTx_eq_foldUpdates]
    exact foldUpdates_none (batchUpdates B) s _ hu hid
  constructor
  · unfold reorderEndpoint; rw [hnone]
  · unfold reorderEndpoint; rw [hnone]

/-- Witness for C2: `sampleBatch` with one extra pair whose id `zzzzz` does
not exist in `sampleStore` leaves the store untouched and answers 500. -/
theorem reorder_missing_id_no_partial_write_witness :
    (∃ rc ∈ ([⟨"c1234", [⟨"i1111", 4⟩, ⟨"zzzzz", 5⟩]⟩] : Batch),
      ∃ ri ∈ rc.items, ri.id ∉ itemIds sampleStore) ∧
    reorderEndpoint sampleStore [⟨"c1234", [⟨"i1111", 4⟩, ⟨"zzzzz", 5⟩]⟩]
      = (sampleStore, 500) ∧
    getSnapshot ((reorderEndpoint sampleStore [⟨"c1234", [⟨"i1111", 4⟩, ⟨"zzzzz", 5⟩]⟩]).1)
      = getSnapshot sampleStore :=
  ⟨by decide, reorder_missing_id_no_partial_write sampleStore _ (by decide)⟩

/-! Claim C3. -/

/-- C3: on a valid batch (every referenced item id exists) the bulk reorder
is idempotent: running the endpoint a second time from the state it produced
returns the very same state and status, and hence the same snapshot. -/
theorem reorder_idempotent (s : Store) (B : Batch)
    (h : ∀ rc ∈ B, ∀ ri ∈ rc.items, ri.id ∈ itemIds s) :
    reorderEndpoint ((reorderEndpoint s B).1) B = reorderEndpoint s B ∧
    getSnapshot ((reorderEndpoint ((reorderEndpoint s B).1) B).1)
      = getSnapshot ((reorderEndpoint s B).1) := by
  have hall : ∀ u ∈ batchUpdates B, u.1 ∈ itemIds s := by
    intro u hu
    obtain ⟨rc, hrc, hu2⟩ := List.mem_flatMap.mp hu
    obtain ⟨ri, hri, hriu⟩ := List.mem_map.mp hu2
    have hu1 : u.1 = ri.id := by rw [← hriu]
    rw [hu1]
    exact h rc hrc ri hri
  obtain ⟨s2, hs2⟩ := foldUpdates_isSome (batchUpdates B) s hall
  have htx : applyReorderTx s B = some s2 := by
    rw [applyReorderTx_eq_foldUpdates]; exact hs2
  obtain ⟨hcont, hitems⟩ := foldUpdates_char hs2
  obtain ⟨s3, hs3⟩ := foldUpdates_isSome (batchUpdates B) s2
    (fun u hu => by rw [foldUpdates_itemIds hs2]; exact hall u hu)
  have htx2 : applyReorderTx s2 B = some s3 := by
    rw [applyReorderTx_eq_foldUpdates]; exact hs3
  obtain ⟨hcont2, hitems2⟩ := foldUpdates_char hs3
  have hfix : s3 = s2 := by
    apply storeFieldsExt
    · rw [hcont2]
    · rw [hitems2, hitems, List.map_map]
      exact List.map_congr_left (fun it _ => applyAssigns_idem (batchUpdates B) it)
  have hone : reorderEndpoint s B = (s2, 200) := by
    unfold reorderEndpoint; rw [htx]
  have htwo : reorderEndpoint s2 B = (s2, 200) := by
    unfold reorderEndpoint; rw [htx2, hfix]
  refine ⟨?_, ?_⟩
  · rw [hone, htwo]
  · rw [hone, htwo]

/-- Witness for C3 at `sampleStore`/`sampleBatch`. -/
theorem reorder_idempotent_witness :
    (∀ rc ∈ sampleBatch, ∀ ri ∈ rc.items, ri.id ∈ itemIds sampleStore) ∧
    reorderEndpoint ((reorderEndpoint sampleStore sampleBatch).1) sampleBatch
      = reorderEndpoint sampleStore sampleBatch ∧
    getSnapshot ((reorderEndpoint ((reorderEndpoint sampleStore sampleBatch).1) sampleBatch).1)
      = getSnapshot ((reorderEndpoint sampleStore sampleBatch).1) :=
  ⟨by decide, reorder_idempotent sampleStore sampleBatch (by decide)⟩

/-! Claim C4. -/

/-- C4: on the realtime channel, when a batch submitted through the
`updatedItems` event applies successfully the handler emits the freshly
re-read snapshot and every connected client, the sender included, receives
it; when the apply step fails, nothing is emitted and no client receives
anything. -/
theorem updatedItems_broadcast_on_success_only (s : Store) (B : Batch)
    (clients : List String) (sender : String) (hs : sender ∈ clients) :
    (∀ s2, applyReorderTx s B = some s2 →
      (updatedItemsHandler s B).1 = s2 ∧
      (updatedItemsHandler s B).2 = some (getSnapshot s2) ∧
      broadcastDeliveries clients ((updatedItemsHandler s B).2)
        = clients.map (fun c => (c, getSnapshot s2)) ∧
      (sender, getSnapshot s2) ∈ broadcastDeliveries clients ((updatedItemsHandler s B).2)) ∧
    (applyReorderTx s B = none →
      (updatedItemsHandler s B).1 = s ∧
      broadcastDeliveries clients ((updatedItemsHandler s B).2) = []) := by
  constructor
  · intro s2 h2
    have hh : updatedItemsHandler s B = (s2, some (getSnapshot s2)) := by
      unfold updatedItemsHandler; rw [h2]
    rw [hh]
    exact ⟨rfl, rfl, rfl, List.mem_map_of_mem _ hs⟩
  · intro h
    have hh : updatedItemsHandler s B = (s, none) := by
      unfold updatedItemsHandler; rw [h]
    rw [hh]
    exact ⟨rfl, rfl⟩

/-- Witness for C4 at `sampleStore`/`sampleBatch` with two connected clients,
`alice` being the sender. -/
theorem updatedItems_broadcast_on_success_only_witness :
    ("alice" ∈ ["alice", "bob"]) ∧
    ((∀ s2, applyReorderTx sampleStore sampleBatch = some s2 →
      (updatedItemsHandler sampleStore sampleBatch).1 = s2 ∧
      (updatedItemsHandler sampleStore sampleBatch).2 = some (getSnapshot s2) ∧
      broadcastDeliveries ["alice", "bob"] ((updatedItemsHandler sampleStore sampleBatch).2)
        = ["alice", "bob"].map (fun c => (c, getSnapshot s2)) ∧
      ("alice", getSnapshot s2)
        ∈ broadcastDeliveries ["alice", "bob"] ((updatedItemsHandler sampleStore sampleBatch).2)) ∧
    (applyReorderTx sampleStore sampleBatch = none →
      (updatedItemsHandler sampleStore sampleBatch).1 = sampleStore ∧
      broadcastDeliveries ["alice", "bob"] ((updatedItemsHandler sampleStore sampleBatch).2) = [])) :=
  ⟨by decide, updatedItems_broadcast_on_success_only sampleStore sampleBatch
    ["alice", "bob"] "alice" (by decide)⟩

/-! Claim C5. -/

/-- C5: a created container's position is one greater than the maximal
container position (0 when there is no container), and a created item's
position is one greater than the maximal item position inside its container
(0 when the container holds no item). -/
theorem create_position_succ_max (s : Store) (cid newIdC newIdI titleC titleI : String)
    (descr : Option String) :
    (createContainer s newIdC titleC descr).2.position =
      (match (s.containers.map (fun c => c.position)).max? with
       | none => 0
       | some m => m + 1) ∧
    (createItem s cid newIdI titleI).2.position =
      (match ((s.items.filter (fun it => it.containerId = cid)).map
          (fun it => it.position)).max? with
       | none => 0
       | some m => m + 1) := by
  constructor
  · show (match findMaxBy (fun c => c.position) s.containers with
        | some lastContainer => lastContainer.position + 1
        | none => 0) = _
    rw [← findMaxBy_map (fun c => c.position) s.containers]
    cases hf : findMaxBy (fun c => c.position) s.containers with
    | none => simp
    | some b => simp
  · show (match findMaxBy (fun it => it.position)
          (s.items.filter (fun it => it.containerId = cid)) with
        | some lastItem => lastItem.position + 1
        | none => 0) = _
    rw [← findMaxBy_map (fun it => it.position)
      (s.items.filter (fun it => it.containerId = cid))]
    cases hf : findMaxBy (fun it => it.position)
        (s.items.filter (fun it => it.containerId = cid)) with
    | none => simp
    | some b => simp

/-! Claim C6. -/

/-- Counterexample to C6: a well-formed id `abcde` that exists in neither
table makes both update endpoints answer the generic 500, not 404. -/
theorem update_missing_id_responds_500_not_404 :
    (updateContainerEndpoint ⟨[⟨"c1234", "A", none, 0⟩], []⟩ "abcde" (some "t") none none).2
      = 500 ∧
    (updateContainerEndpoint ⟨[⟨"c1234", "A", none, 0⟩], []⟩ "abcde" (some "t") none none).2
      ≠ 404 ∧
    (updateItemEndpoint ⟨[⟨"c1234", "A", none, 0⟩], []⟩ "abcde" (some "t") none none).2
      = 500 ∧
    (updateItemEndpoint ⟨[⟨"c1234", "A", none, 0⟩], []⟩ "abcde" (some "t") none none).2
      ≠ 404 := by decide

/-- C6, amended: an update whose well-formed target id does not exist fails,
but the failure is surfaced by the route's catch-all as the generic 500
response, not as a 404; the store is left unchanged. -/
theorem update_missing_id_generic_failure (s : Store) (id : String)
    (titleC : Option String) (descr : Option String) (posC : Option Int)
    (titleI : Option String) (posI : Option Int) (cid : Option String)
    (hlen : idLengthOk id = true)
    (hcidlen : (match cid with | some c => idLengthOk c | none => true) = true)
    (hc : id ∉ containerIds s) (hi : id ∉ itemIds s) :
    updateContainerEndpoint s id titleC descr posC = (s, 500) ∧
    updateItemEndpoint s id titleI posI cid = (s, 500) := by
  constructor
  · unfold updateContainerEndpoint
    rw [if_pos hlen, if_neg (fun hany => hc (mem_containerIds.mpr hany))]
  · unfold updateItemEndpoint
    rw [if_pos (by rw [hlen, hcidlen]; rfl), if_neg (fun hany => hi (mem_itemIds.mpr hany))]

/-- Witness for the amended C6 at `sampleStore` with the fresh id `abcde`. -/
theorem update_missing_id_generic_failure_witness :
    idLengthOk "abcde" = true ∧
    (match (none : Option String) with | some c => idLengthOk c | none => true) = true ∧
    ("abcde" ∉ containerIds sampleStore) ∧ ("abcde" ∉ itemIds sampleStore) ∧
    updateContainerEndpoint sampleStore "abcde" (some "t") none none = (sampleStore, 500) ∧
    updateItemEndpoint sampleStore "abcde" none (some 3) none = (sampleStore, 500) :=
  ⟨by decide, by decide, by decide, by decide,
    (update_missing_id_generic_failure sampleStore "abcde" (some "t") none none
      none (some 3) none (by decide) (by decide) (by decide) (by decide)).1,
    (update_missing_id_generic_failure sampleStore "abcde" (some "t") none none
      none (some 3) none (by decide) (by decide) (by decide) (by decide)).2⟩

/-! Claim C7. -/

/-- C7 names a code bug: `generateUUID` keeps 8 characters, so the minted
ids are `container-` plus 8 = 18 characters and `item-` plus 8 = 13
characters, while the id validators of the GET/PATCH/DELETE routes only
accept 5 to 8 characters — the API rejects every id it mints.  The theorem
evaluates the code at every `uuidv4`-shaped raw string (at least 8 non-dash
characters). -/
theorem minted_ids_fail_id_validator (raw : String)
    (h : 8 ≤ ((raw.data.filter (fun c => c ≠ '-')).length)) :
    (mintContainerId raw).length = 18 ∧
    (mintItemId raw).length = 13 ∧
    idLengthOk (mintContainerId raw) = false ∧
    idLengthOk (mintItemId raw) = false := by
  have huuid : (generateUUID raw).length = 8 := by
    show ((raw.data.filter (fun c => c ≠ '-')).take 8).length = 8
    rw [List.length_take]
    exact min_eq_left h
  have hc : (mintContainerId raw).length = 18 := by
    unfold mintContainerId
    rw [String.length_append, huuid]
    decide
  have hi : (mintItemId raw).length = 13 := by
    unfold mintItemId
    rw [String.length_append, huuid]
    decide
  refine ⟨hc, hi, ?_, ?_⟩
  · unfold idLengthOk
    rw [hc]
    decide
  · unfold idLengthOk
    rw [hi]
    decide

/-- Witness for C7 at a concrete `uuidv4` output. -/
theorem minted_ids_fail_id_validator_witness :
    8 ≤ (("9b1deb4d-3b7d-4bad-9bdd-2b0d7b3dcb6d".data.filter (fun c => c ≠ '-')).length) ∧
    ((mintContainerId "9b1deb4d-3b7d-4bad-9bdd-2b0d7b3dcb6d").length = 18 ∧
     (mintItemId "9b1deb4d-3b7d-4bad-9bdd-2b0d7b3dcb6d").length = 13 ∧
     idLengthOk (mintContainerId "9b1deb4d-3b7d-4bad-9bdd-2b0d7b3dcb6d") = false ∧
     idLengthOk (mintItemId "9b1deb4d-3b7d-4bad-9bdd-2b0d7b3dcb6d") = false) :=
  ⟨by decide, minted_ids_fail_id_validator "9b1deb4d-3b7d-4bad-9bdd-2b0d7b3dcb6d" (by decide)⟩

/-! Claim C8. -/

/-- Counterexample to C8: a request whose body lacks a usable `containers`
array is not rejected with a 400 validation answer; it reaches the
transaction and fails as a generic 500 (store unchanged). -/
theorem reorder_malformed_body_responds_500_not_400 :
    reorderEndpointRaw sampleStore none = (sampleStore, 500) ∧
    (reorderEndpointRaw sampleStore none).2 ≠ 400 := by decide

/-- C8, amended: the bulk-reorder route registers no validators, so its
`validate` middleware accepts every body and the route never answers 400; a
request with a missing or non-array `containers` field fails inside the
transaction instead, answering the generic 500 with the store unchanged. -/
theorem reorder_route_has_no_validation (s : Store) (body : Option Batch) :
    runValidators containersOrderItemsValidators body = true ∧
    reorderEndpointRaw s none = (s, 500) ∧
    (reorderEndpointRaw s body).2 ≠ 400 := by
  refine ⟨rfl, rfl, ?_⟩
  cases body with
  | none =>
    show (500 : Nat) ≠ 400
    decide
  | some b =>
    show (reorderEndpoint s b).2 ≠ 400
    unfold reorderEndpoint
    cases hx : applyReorderTx s b with
    | none =>
      show (500 : Nat) ≠ 400
      decide
    | some s2 =>
      show (200 : Nat) ≠ 400
      decide

/-- Direct instance of the amended C8 at `sampleStore`/`sampleBatch`. -/
theorem reorder_route_has_no_validation_witness :
    runValidators containersOrderItemsValidators (some sampleBatch) = true ∧
    reorderEndpointRaw sampleStore none = (sampleStore, 500) ∧
    (reorderEndpointRaw sampleStore (some sampleBatch)).2 ≠ 400 :=
  reorder_route_has_no_validation sampleStore (some sampleBatch)

/-! Claim C9. -/

/-- Counterexample to C9: interleaving two item creations in the same empty
container so that both `findFirst` position reads happen before either
insert (the source runs the read and the insert without a transaction)
gives both items position 0: a collision. -/
theorem concurrent_create_position_collision :
    ((insertItem
        ((insertItem (⟨[⟨"c1234", "col", none, 0⟩], []⟩ : Store) "i1111" "A"
          (newItemPosition ⟨[⟨"c1234", "col", none, 0⟩], []⟩ "c1234") "c1234").1)
        "i2222" "B"
        (newItemPosition ⟨[⟨"c1234", "col", none, 0⟩], []⟩ "c1234") "c1234").1).items
      = [⟨"i1111", "A", 0, "c1234"⟩, ⟨"i2222", "B", 0, "c1234"⟩] ∧
    (((insertItem
        ((insertItem (⟨[⟨"c1234", "col", none, 0⟩], []⟩ : Store) "i1111" "A"
          (newItemPosition ⟨[⟨"c1234", "col", none, 0⟩], []⟩ "c1234") "c1234").1)
        "i2222" "B"
        (newItemPosition ⟨[⟨"c1234", "col", none, 0⟩], []⟩ "c1234") "c1234").1).items.map
      (fun it => it.position)) = [0, 0] := by decide

/-- C9, amended: the race-free claim holds only for serialized executions.
Starting from a container with no items, running the two creations one after
the other yields positions 0 and 1; but the interleaving in which both
position reads precede both inserts (possible because the source uses no
transaction around read-then-insert) stores position 0 for both items. -/
theorem create_item_positions_by_schedule (s : Store) (cid iA iB tA tB : String)
    (hempty : s.items.filter (fun it => it.containerId = cid) = []) :
    (createItem s cid iA tA).2.position = 0 ∧
    (createItem ((createItem s cid iA tA).1) cid iB tB).2.position = 1 ∧
    ((insertItem ((insertItem s iA tA (newItemPosition s cid) cid).1) iB tB
        (newItemPosition s cid) cid).1).items
      = s.items ++ [⟨iA, tA, 0, cid⟩, ⟨iB, tB, 0, cid⟩] := by
  have hp0 : newItemPosition s cid = 0 := by
    unfold newItemPosition
    rw [hempty]
    rfl
  refine ⟨hp0, ?_, ?_⟩
  · show newItemPosition ((createItem s cid iA tA).1) cid = 1
    have hitems : ((createItem s cid iA tA).1).items
        = s.items ++ [⟨iA, tA, newItemPosition s cid, cid⟩] := rfl
    unfold newItemPosition
    rw [hitems, List.filter_append, hempty, hp0]
    simp [findMaxBy]
  · rw [hp0]
    show (s.items ++ [⟨iA, tA, 0, cid⟩] ++ [⟨iB, tB, 0, cid⟩])
      = s.items ++ [⟨iA, tA, 0, cid⟩, ⟨iB, tB, 0, cid⟩]
    rw [List.append_assoc]
    rfl

/-- Witness for the amended C9: one container `c1234` and no items. -/
theorem create_item_positions_by_schedule_witness :
    ((⟨[⟨"c1234", "col", none, 0⟩], []⟩ : Store).items.filter
      (fun it => it.containerId = "c1234") = []) ∧
    ((createItem ⟨[⟨"c1234", "col", none, 0⟩], []⟩ "c1234" "i1111" "A").2.position = 0 ∧
     (createItem ((createItem ⟨[⟨"c1234", "col", none, 0⟩], []⟩ "c1234" "i1111" "A").1)
        "c1234" "i2222" "B").2.position = 1 ∧
     ((insertItem ((insertItem (⟨[⟨"c1234", "col", none, 0⟩], []⟩ : Store) "i1111" "A"
          (newItemPosition ⟨[⟨"c1234", "col", none, 0⟩], []⟩ "c1234") "c1234").1) "i2222" "B"
          (newItemPosition ⟨[⟨"c1234", "col", none, 0⟩], []⟩ "c1234") "c1234").1).items
        = (⟨[⟨"c1234", "col", none, 0⟩], []⟩ : Store).items
          ++ [⟨"i1111", "A", 0, "c1234"⟩, ⟨"i2222", "B", 0, "c1234"⟩]) :=
  ⟨by decide, create_item_positions_by_schedule ⟨[⟨"c1234", "col", none, 0⟩], []⟩
    "c1234" "i1111" "i2222" "A" "B" (by decide)⟩

/-! Claim C10. -/

lemma updateItemEndpoint_items_cases (s : Store) (id : String)
    (titleI : Option String) (posI : Option Int) (cidI : Option String) :
    ((updateItemEndpoint s id titleI posI cidI).1).items = s.items ∨
    ((updateItemEndpoint s id titleI posI cidI).1).items
      = s.items.map (fun it =>
          if it.id = id then
            { it with
              title := titleI.getD it.title,
              position := posI.getD it.position,
              containerId := cidI.getD it.containerId }
          else it) := by
  unfold updateItemEndpoint
  by_cases hval : (idLengthOk id
      && (match cidI with | some c => idLengthOk c | none => true)) = true
  · rw [if_pos hval]
    by_cases hex : s.items.any (fun it => it.id = id) = true
    · rw [if_pos hex]; right; rfl
    · rw [if_neg hex]; left; rfl
  · rw [if_neg hval]; left; rfl

lemma updateContainerEndpoint_containers_cases (s : Store) (id : String)
    (titleC : Option String) (descr : Option String) (posC : Option Int) :
    ((updateContainerEndpoint s id titleC descr posC).1).containers = s.containers ∨
    ((updateContainerEndpoint s id titleC descr posC).1).containers
      = s.containers.map (fun c =>
          if c.id = id then
            { c with
              title := titleC.getD c.title,
              description := (match descr with | some d => some d | none => c.description),
              position := posC.getD c.position }
          else c) := by
  unfold updateContainerEndpoint
  by_cases hval : idLengthOk id = true
  · rw [if_pos hval]
    by_cases hex : s.containers.any (fun c => c.id = id) = true
    · rw [if_pos hex]; right; rfl
    · rw [if_neg hex]; left; rfl
  · rw [if_neg hval]; left; rfl

/-- C10: fields omitted from an update body (fields that are `undefined` in
the Prisma `data`) are left unchanged on every row: a patch supplying only a
title leaves every item's position and containerId exactly as they were, and
likewise for the container endpoint with omitted title, description or
position. -/
theorem update_omitted_fields_unchanged (s : Store) (id : String)
    (titleI : Option String) (posI : Option Int) (cidI : Option String)
    (titleC : Option String) (descr : Option String) (posC : Option Int) :
    ((titleI = none →
        ((updateItemEndpoint s id titleI posI cidI).1).items.map (fun it => it.title)
          = s.items.map (fun it => it.title)) ∧
     (posI = none →
        ((updateItemEndpoint s id titleI posI cidI).1).items.map (fun it => it.position)
          = s.items.map (fun it => it.position)) ∧
     (cidI = none →
        ((updateItemEndpoint s id titleI posI cidI).1).items.map (fun it => it.containerId)
          = s.items.map (fun it => it.containerId))) ∧
    ((titleC = none →
        ((updateContainerEndpoint s id titleC descr posC).1).containers.map (fun c => c.title)
          = s.containers.map (fun c => c.title)) ∧
     (descr = none →
        ((updateContainerEndpoint s id titleC descr posC).1).containers.map
            (fun c => c.description)
          = s.containers.map (fun c => c.description)) ∧
     (posC = none →
        ((updateContainerEndpoint s id titleC descr posC).1).containers.map
            (fun c => c.position)
          = s.containers.map (fun c => c.position))) := by
  refine ⟨⟨?_, ?_, ?_⟩, ⟨?_, ?_, ?_⟩⟩
  · intro h; subst h
    rcases updateItemEndpoint_items_cases s id none posI cidI with heq | heq
    · rw [heq]
    · rw [heq, List.map_map]
      apply List.map_congr_left
      intro it _
      by_cases hit : it.id = id <;> simp [hit]
  · intro h; subst h
    rcases updateItemEndpoint_items_cases s id titleI none cidI with heq | heq
    · rw [heq]
    · rw [heq, List.map_map]
      apply List.map_congr_left
      intro it _
      by_cases hit : it.id = id <;> simp [hit]
  · intro h; subst h
    rcases updateItemEndpoint_items_cases s id titleI posI none with heq | heq
    · rw [heq]
    · rw [heq, List.map_map]
      apply List.map_congr_left
      intro it _
      by_cases hit : it.id = id <;> simp [hit]
  · intro h; subst h
    rcases updateContainerEndpoint_containers_cases s id none descr posC with heq | heq
    · rw [heq]
    · rw [heq, List.map_map]
      apply List.map_congr_left
      intro c _
      by_cases hcc : c.id = id <;> simp [hcc]
  · intro h; subst h
    rcases updateContainerEndpoint_containers_cases s id titleC none posC with heq | heq
    · rw [heq]
    · rw [heq, List.map_map]
      apply List.map_congr_left
      intro c _
      by_cases hcc : c.id = id <;> simp [hcc]
  · intro h; subst h
    rcases updateContainerEndpoint_containers_cases s id titleC descr none with heq | heq
    · rw [heq]
    · rw [heq, List.map_map]
      apply List.map_congr_left
      intro c _
      by_cases hcc : c.id = id <;> simp [hcc]

/-- Witness for C10: a patch with every optional field omitted leaves all
projections of `sampleStore` unchanged, through both endpoints (the item
`i1111` and the container `c1234` exist, so the update path is exercised). -/
theorem update_omitted_fields_unchanged_witness :
    (((updateItemEndpoint sampleStore "i1111" none none none).1).items.map (fun it => it.title)
      = sampleStore.items.map (fun it => it.title)) ∧
    (((updateItemEndpoint sampleStore "i1111" none none none).1).items.map (fun it => it.position)
      = sampleStore.items.map (fun it => it.position)) ∧
    (((updateItemEndpoint sampleStore "i1111" none none none).1).items.map
        (fun it => it.containerId)
      = sampleStore.items.map (fun it => it.containerId)) ∧
    (((updateContainerEndpoint sampleStore "c1234" none none none).1).containers.map
        (fun c => c.title)
      = sampleStore.containers.map (fun c => c.title)) ∧
    (((updateContainerEndpoint sampleStore "c1234" none none none).1).containers.map
        (fun c => c.description)
      = sampleStore.containers.map (fun c => c.description)) ∧
    (((updateContainerEndpoint sampleStore "c1234" none none none).1).containers.map
        (fun c => c.position)
      = sampleStore.containers.map (fun c => c.position)) :=
  ⟨(update_omitted_fields_unchanged sampleStore "i1111" none none none none none none).1.1 rfl,
   (update_omitted_fields_unchanged sampleStore "i1111" none none none none none none).1.2.1 rfl,
   (update_omitted_fields_unchanged sampleStore "i1111" none none none none none none).1.2.2 rfl,
   (update_omitted_fields_unchanged sampleStore "c1234" none none none none none none).2.1 rfl,
   (update_omitted_fields_unchanged sampleStore "c1234" none none none none none none).2.2.1 rfl,
   (update_omitted_fields_unchanged sampleStore "c1234" none none none none none none).2.2.2 rfl⟩

end Kanban
